import Mathlib

/-!
Verification development for the AI invoice/PDF reconciliation pipeline.

The repository contains three variants of the reconciliation pipeline:
  * `app.py`      — Streamlit app: `find_patient_id`, `compare_with_gpt`, `process_files`;
  * `Raw.py`      — script variant: same helpers plus a module-level batch loop;
  * `invoice_processor.py` — structured-mode variant: `compare_data_with_ai`,
    `process_invoice_batch`, `generate_report`; with `utils.py: create_summary_stats`.

Strings are embedded as `List Char`.  The external comparison service (OpenAI chat
call) is embedded as an oracle function argument, so "the service is not invoked"
is expressed as independence of the result from the oracle.  Python regular
expression classes `\s` and `\d` are modelled over their ASCII ranges, and
`str.lower` as ASCII lowercasing, which is exact on all inputs appearing in the
claims.
-/

/-- Convert a string literal to the `List Char` representation used throughout. -/
def strL (s : String) : List Char := s.toList

/-- The character `\x7b` (opening curly brace). -/
def lbrace : Char := Char.ofNat 123

/-- The character `\x7d` (closing curly brace). -/
def rbrace : Char := Char.ofNat 125

/-- Python `\s` (ASCII range): space, tab, newline, carriage return, vertical tab, form feed. -/
def isWsPy (c : Char) : Bool :=
  c = ' ' || c = '\t' || c = '\n' || c = '\r' || c = '\x0b' || c = '\x0c'

/-- Python `str.lower` (ASCII fragment). -/
def lowerStr (s : List Char) : List Char := s.map Char.toLower

/-- Python substring containment `needle in hay`. -/
def isSubstringOf (n : List Char) : List Char → Bool
  | [] => n.isEmpty
  | c :: t => n.isPrefixOf (c :: t) || isSubstringOf n t

/-- Case-insensitive literal match: `pat` is given lowercased; on success return
the rest of the input after the matched prefix.  Models a literal run inside a
Python regex compiled with `re.IGNORECASE`. -/
def stripCI : List Char → List Char → Option (List Char)
  | [], s => some s
  | _ :: _, [] => none
  | p :: ps, c :: cs => if c.toLower = p then stripCI ps cs else none

/-- Model of the regex tail `\s*[:\-]?\s*(\d+)` from
`re.search(r"(?:Patient\s*ID|ID)\s*[:\-]?\s*(\d+)", text, re.IGNORECASE)`
(`app.py::find_patient_id`, `Raw.py::find_patient_id`): optional whitespace, an
optional `:` or `-` separator, optional whitespace, then a maximal nonempty digit
run, which is the captured group.  Whitespace, separator and digit characters are
disjoint, so the greedy/backtracking behaviour of the Python engine coincides
with this deterministic scan. -/
def matchSep (s : List Char) : Option (List Char) :=
  let s1 := s.dropWhile isWsPy
  let s2 := match s1 with
            | ':' :: r => r
            | '-' :: r => r
            | _ => s1
  let s3 := s2.dropWhile isWsPy
  let ds := s3.takeWhile Char.isDigit
  if ds.isEmpty then none else some ds

/-- Try the alternation `(?:Patient\s*ID|ID)` at the current position, then the
separator-and-digits tail; the two alternatives start with distinct letters, so
trying the `Patient\s*ID` branch first is faithful to the regex engine. -/
def matchIdAt (s : List Char) : Option (List Char) :=
  match stripCI (strL "patient") s with
  | some r1 =>
    match stripCI (strL "id") (r1.dropWhile isWsPy) with
    | some r2 => matchSep r2
    | none =>
      match stripCI (strL "id") s with
      | some r => matchSep r
      | none => none
  | none =>
    match stripCI (strL "id") s with
    | some r => matchSep r
    | none => none

/-- Embedding of `find_patient_id` (`app.py` lines 73-76, identical in `Raw.py`):
`re.search` scans left to right and returns the first position where the pattern
matches; the returned value is the captured digit run, or `None`. -/
def find_patient_id : List Char → Option (List Char)
  | [] => none
  | c :: cs =>
    match matchIdAt (c :: cs) with
    | some ds => some ds
    | none => find_patient_id cs

/-- One row of the Excel master data, as read by
`pd.read_excel(excel_file, dtype={"Patient ID": str})`: the `Patient ID` column
is read as a raw string (leading zeros preserved, no numeric coercion), plus the
remaining named fields. -/
structure RefRow where
  patientId : List Char
  fields : List (List Char × List Char)
deriving DecidableEq, Repr

/-- Embedding of `df[df["Patient ID"] == pid]` followed by `.iloc[0]`
(`app.py` lines 184-195, `Raw.py` lines 99-104): filter the master-data rows by
exact string equality on the identifier column and take the first match;
`None` when the filtered frame is empty. -/
def lookup_patient (df : List RefRow) (pid : List Char) : Option RefRow :=
  (df.filter (fun r => r.patientId == pid)).head?

/-- Sentinel phrase searched for (lowercased) in the comparison response. -/
def noDiscPhrase : List Char := strL "no discrepancies"

/-- Second sentinel phrase searched for (lowercased) in the comparison response. -/
def allDataPhrase : List Char := strL "all the data"

/-- Error marker produced by `compare_with_gpt`'s exception handler in `app.py`. -/
def errPhrase : List Char := strL "Error during comparison"

/-- Embedding of the response clean-up in `app.py::process_files` (lines 198-207):
first the case-insensitive sentinel-substring check, then the case-sensitive
error-marker check, else a data error.  Returns the pair
(`Data Errors` column value, `Status` column value). -/
def app_clean_response (resp : List Char) : List Char × List Char :=
  if isSubstringOf noDiscPhrase (lowerStr resp) || isSubstringOf allDataPhrase (lowerStr resp) then
    (strL "No discrepancies", strL "Clean")
  else if isSubstringOf errPhrase resp then
    (resp, strL "Error")
  else
    (resp, strL "Data Error")

/-- Embedding of the response clean-up in `Raw.py` (lines 110-114): only the
sentinel-substring normalization; `Raw.py` rows carry no `Status` column. -/
def raw_clean_response (resp : List Char) : List Char :=
  if isSubstringOf noDiscPhrase (lowerStr resp) || isSubstringOf allDataPhrase (lowerStr resp) then
    strL "No discrepancies"
  else
    resp

/-- One row appended to `reports` by `app.py::process_files`. -/
structure ReportRow where
  patientId : List Char
  pdfFile : List Char
  dataErrors : List Char
  status : List Char
deriving DecidableEq, Repr

/-- One row appended to `reports` by the `Raw.py` batch loop (no status column). -/
structure RawRow where
  patientId : List Char
  pdfFile : List Char
  dataErrors : List Char
deriving DecidableEq, Repr

/-- Result of `extract_text_from_pdf` on one uploaded file: either the extracted
text, or the message of the exception raised inside the per-file `try` block of
`process_files` (PDF extraction is the effectful step of that block). -/
inductive PdfContent where
  | ok (text : List Char)
  | exn (msg : List Char)
deriving DecidableEq, Repr

/-- One uploaded PDF file as seen by `process_files`. -/
structure PdfUpload where
  name : List Char
  content : PdfContent
deriving DecidableEq, Repr

/-- The external comparison service of the free-text pipeline
(`compare_with_gpt`): extracted text and matched master row in, response text
out.  `compare_with_gpt` catches its own exceptions and returns an
`Error during comparison: ...` string, so the call is total. -/
def GptOracle : Type := List Char → RefRow → List Char

/-- Embedding of one iteration of the loop in `app.py::process_files`
(lines 161-222): extract text, resolve the identifier, look up the master row,
invoke the comparison, clean up the response; every branch appends exactly one
report row. -/
def process_one_file (df : List RefRow) (gpt : GptOracle) (f : PdfUpload) : ReportRow :=
  match f.content with
  | PdfContent.exn msg =>
    ⟨strL "Error", f.name, strL "Processing error: " ++ msg, strL "Error"⟩
  | PdfContent.ok txt =>
    match find_patient_id txt with
    | none =>
      ⟨strL "Not Found", f.name, strL "Patient ID not found in PDF", strL "Error"⟩
    | some pid =>
      match lookup_patient df pid with
      | none =>
        ⟨pid, f.name, strL "Patient ID " ++ pid ++ strL " not found in Excel master data",
          strL "Error"⟩
      | some row =>
        let c := app_clean_response (gpt txt row)
        ⟨pid, f.name, c.1, c.2⟩

/-- Embedding of `app.py::process_files`: the batch loop maps each uploaded file
to its report row. -/
def process_files (df : List RefRow) (gpt : GptOracle) (files : List PdfUpload) :
    List ReportRow :=
  files.map (process_one_file df gpt)

/-- One file of the `pdfs` folder as seen by the `Raw.py` batch loop (the script
has no per-file exception handling; an extraction failure aborts the run, so the
loop body only ever sees successfully extracted text). -/
structure RawDoc where
  name : List Char
  text : List Char
deriving DecidableEq, Repr

/-- Embedding of one iteration of the module-level batch loop in `Raw.py`
(lines 87-120): non-`.pdf` filenames are skipped, documents with no resolved
identifier are skipped with only a console message, documents whose identifier
has no master-data row are skipped with only a console message; only the
remaining documents append a report row. -/
def raw_process_file (df : List RefRow) (gpt : GptOracle) (d : RawDoc) : Option RawRow :=
  if (strL ".pdf").isSuffixOf (lowerStr d.name) then
    match find_patient_id d.text with
    | none => none
    | some pid =>
      match lookup_patient df pid with
      | none => none
      | some row => some ⟨pid, d.name, raw_clean_response (gpt d.text row)⟩
  else none

/-- Embedding of the whole `Raw.py` batch loop: the report keeps only the rows
actually appended. -/
def raw_batch (df : List RefRow) (gpt : GptOracle) (docs : List RawDoc) : List RawRow :=
  docs.filterMap (raw_process_file df gpt)

/-- Embedding of the `Raw.py` summary classification (lines 127 and 137): a report
row counts as having data errors iff its `Data Errors` cell does not contain the
substring `No discrepancies`. -/
def raw_has_data_errors (row : RawRow) : Bool :=
  !(isSubstringOf (strL "No discrepancies") row.dataErrors)

/-!
Structured-mode pipeline: `invoice_processor.py`.
-/

/-- JSON values as produced by `json.loads` in `compare_data_with_ai`.  Numbers
are modelled as rationals (decimal literals without exponents); strings support
the single-character escapes; `\u` escapes and exponent notation do not occur in
the inputs of any claim and are modelled as parse failures. -/
inductive Json where
  | null
  | bool (b : Bool)
  | num (q : ℚ)
  | str (s : List Char)
  | arr (xs : List Json)
  | obj (kvs : List (List Char × Json))

/-- JSON whitespace accepted between tokens by `json.loads`. -/
def isJsonWs (c : Char) : Bool := c = ' ' || c = '\t' || c = '\n' || c = '\r'

/-- Skip JSON whitespace. -/
def skipWs (s : List Char) : List Char := s.dropWhile isJsonWs

/-- Single-character string escapes accepted by `json.loads`. -/
def escChar (c : Char) : Option Char :=
  if c = '"' then some '"'
  else if c = '\\' then some '\\'
  else if c = '/' then some '/'
  else if c = 'n' then some '\n'
  else if c = 't' then some '\t'
  else if c = 'r' then some '\r'
  else if c = 'b' then some '\x08'
  else if c = 'f' then some '\x0c'
  else none

/-- Parse the body of a JSON string (the opening quote already consumed):
returns the decoded characters and the rest of the input.  Raw control
characters are rejected, as in strict-mode `json.loads`. -/
def pStr : List Char → Option (List Char × List Char)
  | [] => none
  | '"' :: r => some ([], r)
  | '\\' :: c :: r =>
    match escChar c with
    | some e => (pStr r).map (fun p => (e :: p.1, p.2))
    | none => none
  | c :: r =>
    if c.toNat < 32 then none
    else (pStr r).map (fun p => (c :: p.1, p.2))

/-- Numeric value of a digit run. -/
def digitsVal (ds : List Char) : Nat :=
  ds.foldl (fun a c => 10 * a + (c.toNat - 48)) 0

/-- Parse a JSON number (optional minus, integer part without leading zeros,
optional fraction part; exponents are not modelled). -/
def pNum (s : List Char) : Option (Json × List Char) :=
  let negAndRest : Bool × List Char :=
    match s with
    | '-' :: r => (true, r)
    | _ => (false, s)
  let s1 := negAndRest.2
  let ds := s1.takeWhile Char.isDigit
  let r1 := s1.dropWhile Char.isDigit
  if ds.isEmpty then none
  else if 1 < ds.length ∧ ds.head? = some '0' then none
  else
    match r1 with
    | '.' :: r2 =>
      let fs := r2.takeWhile Char.isDigit
      let r3 := r2.dropWhile Char.isDigit
      if fs.isEmpty then none
      else
        let q : ℚ := (digitsVal ds : ℚ) + (digitsVal fs : ℚ) / ((10 : ℚ) ^ fs.length)
        some (Json.num (if negAndRest.1 then -q else q), r3)
    | _ =>
      let q : ℚ := (digitsVal ds : ℚ)
      some (Json.num (if negAndRest.1 then -q else q), r1)

mutual

/-- Parse one JSON value (fuel-indexed; fuel bounds the nesting depth). -/
def pVal : Nat → List Char → Option (Json × List Char)
  | 0, _ => none
  | fuel + 1, s =>
    match skipWs s with
    | [] => none
    | '"' :: r => (pStr r).map (fun p => (Json.str p.1, p.2))
    | 't' :: 'r' :: 'u' :: 'e' :: r => some (Json.bool true, r)
    | 'f' :: 'a' :: 'l' :: 's' :: 'e' :: r => some (Json.bool false, r)
    | 'n' :: 'u' :: 'l' :: 'l' :: r => some (Json.null, r)
    | '[' :: r => pArrBody fuel r
    | c :: r =>
      if c = lbrace then pObjBody fuel r
      else pNum (c :: r)

/-- Parse the inside of a JSON array, after the opening bracket. -/
def pArrBody : Nat → List Char → Option (Json × List Char)
  | 0, _ => none
  | fuel + 1, s =>
    match skipWs s with
    | ']' :: r => some (Json.arr [], r)
    | s1 =>
      match pVal fuel s1 with
      | none => none
      | some (v, r) => pArrRest fuel [v] r

/-- Parse the remaining elements of a JSON array (accumulator reversed). -/
def pArrRest : Nat → List Json → List Char → Option (Json × List Char)
  | 0, _, _ => none
  | fuel + 1, acc, s =>
    match skipWs s with
    | ']' :: r => some (Json.arr acc.reverse, r)
    | ',' :: r =>
      match pVal fuel r with
      | none => none
      | some (v, r1) => pArrRest fuel (v :: acc) r1
    | _ => none

/-- Parse the inside of a JSON object, after the opening brace. -/
def pObjBody : Nat → List Char → Option (Json × List Char)
  | 0, _ => none
  | fuel + 1, s =>
    match skipWs s with
    | [] => none
    | c :: r =>
      if c = rbrace then some (Json.obj [], r)
      else if c = '"' then
        match pStr r with
        | none => none
        | some (k, r1) =>
          match skipWs r1 with
          | ':' :: r2 =>
            match pVal fuel r2 with
            | none => none
            | some (v, r3) => pObjRest fuel [(k, v)] r3
          | _ => none
      else none

/-- Parse the remaining members of a JSON object (accumulator reversed). -/
def pObjRest : Nat → List (List Char × Json) → List Char → Option (Json × List Char)
  | 0, _, _ => none
  | fuel + 1, acc, s =>
    match skipWs s with
    | [] => none
    | c :: r =>
      if c = rbrace then some (Json.obj acc.reverse, r)
      else if c = ',' then
        match skipWs r with
        | '"' :: r1 =>
          match pStr r1 with
          | none => none
          | some (k, r2) =>
            match skipWs r2 with
            | ':' :: r3 =>
              match pVal fuel r3 with
              | none => none
              | some (v, r4) => pObjRest fuel ((k, v) :: acc) r4
            | _ => none
        | _ => none
      else none

end

/-- Embedding of `json.loads`: parse exactly one value, allowing surrounding
whitespace only. -/
def json_loads (s : List Char) : Option Json :=
  match pVal (s.length + 1) s with
  | some (j, rest) => if (skipWs rest).isEmpty then some j else none
  | none => none

/-- Embedding of `re.search(r'\{.*\}', ai_response, re.DOTALL)` in
`compare_data_with_ai` (line 170): with `.` matching newlines, the leftmost-then-
greedy match runs from the first `\x7b` in the response to the last `\x7d`, and
exists iff some `\x7d` occurs strictly after the first `\x7b`.  This is a greedy
regex span, not balanced-brace scanning. -/
def extractCandidate (s : List Char) : Option (List Char) :=
  let t := s.dropWhile (fun c => !(c = lbrace))
  let u := (t.reverse.dropWhile (fun c => !(c = rbrace))).reverse
  if 2 ≤ u.length then some u else none

/-- Python `dict.get` on the dictionary produced by `json.loads`: with duplicate
keys in the source text, the last occurrence wins. -/
def dictGet (kvs : List (List Char × Json)) (k : List Char) : Option Json :=
  (kvs.reverse.find? (fun p => p.1 == k)).map (fun p => p.2)

/-- Embedding of the response-parsing phase of `compare_data_with_ai`
(`invoice_processor.py` lines 164-185): extract the regex candidate (no match
logs a warning and leaves `discrepancies = []`), run `json.loads` on it (a
`JSONDecodeError` is logged and leaves `discrepancies = []`), then return
`result.get('discrepancies', [])`.  A successfully parsed candidate always
starts with `\x7b`, hence is an object.  The returned value is the raw JSON
value of the `discrepancies` key (the empty array by default). -/
def compare_parse (resp : List Char) : Json :=
  match extractCandidate resp with
  | none => Json.arr []
  | some cand =>
    match json_loads cand with
    | none => Json.arr []
    | some (Json.obj kvs) => (dictGet kvs (strL "discrepancies")).getD (Json.arr [])
    | some _ => Json.arr []

/-- Iterating the parsed `discrepancies` value in `process_invoice_batch`: an
array yields its entries.  A non-array value there would raise a `TypeError` in
the tagging loop, caught by the per-document handler; it is modelled as
contributing no entries. -/
def jsonEntries : Json → List Json
  | Json.arr xs => xs
  | _ => []

/-- Tagging `disc['source_file'] = name` performed on each discrepancy entry in
`process_invoice_batch` (lines 209-210): set (or overwrite) the key on an
object entry. -/
def tagSource (name : List Char) : Json → Json
  | Json.obj kvs =>
    Json.obj ((kvs.filter (fun p => !(p.1 == strL "source_file"))) ++
      [(strL "source_file", Json.str name)])
  | j => j

/-- One input document of `process_invoice_batch`, with the external effects
(PDF table extraction and the AI comparison call) folded into the input: either
the extraction raised (the per-document handler logs and continues), or the
document yields one AI response text per extracted table. -/
inductive BatchDoc where
  | failed (name : List Char) (msg : List Char)
  | ok (name : List Char) (responses : List (List Char))
deriving Repr

/-- Contribution of one document to `all_discrepancies` in
`process_invoice_batch` (lines 197-216): each table's response is parsed, its
entries are tagged with the source file, and appended in order; a failed
document contributes nothing and does not stop the batch. -/
def batch_doc_discrepancies : BatchDoc → List Json
  | BatchDoc.failed _ _ => []
  | BatchDoc.ok name resps =>
    (resps.map (fun r => (jsonEntries (compare_parse r)).map (tagSource name))).flatten

/-- Embedding of the batch loop of `process_invoice_batch`: the documents are
processed in order and their discrepancy lists concatenated. -/
def process_invoice_batch (docs : List BatchDoc) : List Json :=
  (docs.map batch_doc_discrepancies).flatten

/-!
Comparison request construction (C8) and summary statistics (C9).
-/

/-- The request parameters passed to the chat-completion API call. -/
structure ChatRequest where
  model : List Char
  temperature : ℚ
  maxTokens : Option Nat
deriving DecidableEq, Repr

/-- The minimum sampling temperature accepted by the service. -/
def minTemperature : ℚ := 0

/-- Request built by `app.py::compare_with_gpt` (lines 124-131):
`model="gpt-4", temperature=0.0`, no `max_tokens`. -/
def compare_with_gpt_request : ChatRequest :=
  ⟨strL "gpt-4", 0, none⟩

/-- Request built by `Raw.py::compare_with_gpt` (lines 70-77):
`model="gpt-4", temperature=0.0`, no `max_tokens`. -/
def raw_compare_with_gpt_request : ChatRequest :=
  ⟨strL "gpt-4", 0, none⟩

/-- Request built by `invoice_processor.py::compare_data_with_ai` (lines 154-162):
`model="gpt-3.5-turbo", temperature=0.1, max_tokens=2000`. -/
def compare_data_with_ai_request : ChatRequest :=
  ⟨strL "gpt-3.5-turbo", 1 / 10, some 2000⟩

/-- The summary dictionary returned by `utils.py::create_summary_stats`. -/
structure SummaryStats where
  total_discrepancies : Nat
  total_amount_difference : ℚ
  avg_discrepancy : ℚ
  max_discrepancy : ℚ
deriving DecidableEq, Repr

/-- Embedding of `utils.py::create_summary_stats` (lines 60-77): each
discrepancy contributes `abs(d.get('amount_difference', 0))` (the key may be
absent, hence `Option`); the result holds count, sum, mean, and maximum of
those absolute amounts.  Python `max(amounts)` on the nonempty list of
nonnegative amounts equals the fold with initial value `0`. -/
def create_summary_stats (ds : List (Option ℚ)) : SummaryStats :=
  if ds.isEmpty then ⟨0, 0, 0, 0⟩
  else
    let amounts := ds.map (fun d => |d.getD 0|)
    ⟨ds.length, amounts.sum, amounts.sum / (amounts.length : ℚ), amounts.foldr max 0⟩

/-!
Concrete inputs used by witnesses and counterexamples.
-/

/-- A well-formed JSON object with a one-entry `discrepancies` array. -/
def c3obj : List Char := strL "\x7b\"discrepancies\": [\x7b\"item_name\": \"w\"\x7d]\x7d"

/-- The entries of the `discrepancies` array of `c3obj`. -/
def c3entries : List Json := [Json.obj [(strL "item_name", Json.str (strL "w"))]]

/-- A comparison response embedding `c3obj` whose trailing prose contains a
closing brace, so the greedy regex span is not the embedded object. -/
def c3resp : List Char := strL "Sure: " ++ c3obj ++ strL " :-\x7d"

/-- A comparison response that names an actual discrepancy and also contains
the sentinel substring. -/
def c10resp : List Char :=
  strL "Patient Name: Excel has JOHN, PDF has JANE. For the dates there are no discrepancies."

/-!
Helper lemmas.
-/

/-- A list is a prefix of itself under the boolean check. -/
theorem isPrefixOf_self (l : List Char) : l.isPrefixOf l = true := by
  simp

/-- A string contains itself as a substring. -/
theorem isSubstringOf_self (l : List Char) : isSubstringOf l l = true := by
  cases l with
  | nil => rfl
  | cons c t => simp [isSubstringOf, isPrefixOf_self]

/-- Dropping while a predicate holds skips over a block where it holds everywhere. -/
theorem dropWhile_append_of_forall {p : Char → Bool} (pre t : List Char)
    (h : ∀ c ∈ pre, p c = true) : (pre ++ t).dropWhile p = t.dropWhile p := by
  induction pre with
  | nil => rfl
  | cons a l ih =>
    have ha : p a = true := h a (List.mem_cons_self a l)
    simp only [List.cons_append, List.dropWhile_cons, ha, if_true]
    exact ih (fun c hc => h c (List.mem_cons_of_mem a hc))

/-- The greedy regex span of `re.search` with pattern `\{.*\}` on a response of
shape prose-object-prose: when the leading prose contains no opening brace, the
trailing prose contains no closing brace, and the object is brace-delimited, the
extracted candidate is exactly the object. -/
theorem extractCandidate_embed (pre o post : List Char)
    (hpre : ∀ c ∈ pre, c ≠ lbrace) (hpost : ∀ c ∈ post, c ≠ rbrace)
    (hhead : o.head? = some lbrace) (hlast : o.getLast? = some rbrace) :
    extractCandidate (pre ++ o ++ post) = some o := by
  obtain ⟨o1, rfl⟩ : ∃ t, o = lbrace :: t := by
    cases o with
    | nil => simp at hhead
    | cons a t =>
      simp only [List.head?_cons, Option.some.injEq] at hhead
      exact ⟨t, by rw [hhead]⟩
  have hrev : (lbrace :: o1).reverse.head? = some rbrace := by
    rw [← List.getLast?_eq_head?_reverse]
    exact hlast
  obtain ⟨w, hw⟩ : ∃ w, (lbrace :: o1).reverse = rbrace :: w := by
    cases hr : (lbrace :: o1).reverse with
    | nil => rw [hr] at hrev; simp at hrev
    | cons b u =>
      rw [hr] at hrev
      simp only [List.head?_cons, Option.some.injEq] at hrev
      exact ⟨u, by rw [hrev]⟩
  have ho1 : o1 ≠ [] := by
    intro h0
    subst h0
    simp only [List.reverse_cons, List.reverse_nil, List.nil_append, List.cons.injEq] at hw
    exact absurd hw.1 (by decide)
  have h1 : (pre ++ (lbrace :: o1) ++ post).dropWhile (fun c => !(c = lbrace)) =
      (lbrace :: o1) ++ post := by
    rw [List.append_assoc]
    rw [dropWhile_append_of_forall pre _ (fun c hc => by simp [hpre c hc])]
    simp [List.dropWhile_cons]
  have h2 : (((lbrace :: o1) ++ post).reverse).dropWhile (fun c => !(c = rbrace)) =
      (lbrace :: o1).reverse := by
    rw [List.reverse_append]
    rw [dropWhile_append_of_forall post.reverse _
      (fun c hc => by simp [hpost c (List.mem_reverse.mp hc)])]
    rw [hw]
    simp [List.dropWhile_cons]
  have hlen : 2 ≤ (lbrace :: o1).length := by
    have := List.length_pos.mpr ho1
    simp only [List.length_cons]
    omega
  simp only [extractCandidate, h1, h2, List.reverse_reverse]
  rw [if_pos hlen]

/-- First-match-wins for the master-data lookup: with no match before it, the
first matching row is returned, whatever follows (duplicates included). -/
theorem lookup_patient_append (pre post : List RefRow) (r : RefRow) (pid : List Char)
    (hpre : ∀ x ∈ pre, x.patientId ≠ pid) (hr : r.patientId = pid) :
    lookup_patient (pre ++ r :: post) pid = some r := by
  induction pre with
  | nil =>
    have hr2 : (r.patientId == pid) = true := beq_iff_eq.mpr hr
    simp [lookup_patient, List.filter_cons, hr2]
  | cons a l ih =>
    have ha : (a.patientId == pid) = false :=
      beq_eq_false_iff_ne.mpr (hpre a (List.mem_cons_self a l))
    have ih2 := ih (fun x hx => hpre x (List.mem_cons_of_mem a hx))
    simpa [lookup_patient, List.filter_cons, ha] using ih2

/-- Every element is bounded by the fold of `max` that starts at `0`. -/
theorem le_foldr_max (l : List ℚ) : ∀ x ∈ l, x ≤ l.foldr max 0 := by
  induction l with
  | nil => intro x hx; cases hx
  | cons a t ih =>
    intro x hx
    rcases List.mem_cons.mp hx with rfl | hx
    · exact le_max_left _ _
    · exact le_trans (ih x hx) (le_max_right _ _)

/-- On a nonempty list of nonnegative rationals, the fold of `max` from `0`
is attained by an element (so it agrees with Python `max`). -/
theorem foldr_max_mem (l : List ℚ) (hne : l ≠ []) (hnn : ∀ x ∈ l, 0 ≤ x) :
    l.foldr max 0 ∈ l := by
  induction l with
  | nil => exact absurd rfl hne
  | cons a t ih =>
    cases t with
    | nil =>
      simp [max_eq_left (hnn a (List.mem_cons_self a []))]
    | cons b u =>
      have ih2 := ih (by simp) (fun x hx => hnn x (List.mem_cons_of_mem a hx))
      have hfold : (a :: b :: u).foldr max 0 = max a ((b :: u).foldr max 0) := rfl
      rcases max_choice a ((b :: u).foldr max 0) with h | h
      · rw [hfold, h]; exact List.mem_cons_self _ _
      · rw [hfold, h]; exact List.mem_cons_of_mem a ih2

/-!
Claim theorems.
-/

/-- C1 (amended): the `app.py` batch reconciler `process_files` appends exactly
one outcome record per input document, so its report length equals the input
count; the `Raw.py` batch loop appends at most one record per document and may
skip documents, so its report length is only bounded by the input count. -/
theorem claim_C1 (df : List RefRow) (gpt : GptOracle) (files : List PdfUpload)
    (docs : List RawDoc) :
    (process_files df gpt files).length = files.length ∧
    (raw_batch df gpt docs).length ≤ docs.length :=
  ⟨by simp [process_files],
   by simpa [raw_batch] using List.length_filterMap_le (raw_process_file df gpt) docs⟩

/-- C1 counterexample: in the `Raw.py` batch loop, a document whose text
contains no identifier pattern produces no outcome record at all, so the final
report length differs from the input document count. -/
theorem claim_C1_counterexample :
    (raw_batch [⟨strL "7", []⟩] (fun _ _ => strL "No discrepancies")
        [⟨strL "b.pdf", strL "no patient number here"⟩]).length ≠
      ([⟨strL "b.pdf", strL "no patient number here"⟩] : List RawDoc).length := by
  decide

/-- C2 (confirmed): a comparison response equal, case-insensitively, to an
accepted sentinel phrasing is classified Clean, its recorded description is the
normalized text `No discrepancies`, and the resulting row carries no data
errors (the `Raw.py` classifier counts it as discrepancy-free). -/
theorem claim_C2 (resp : List Char)
    (h : lowerStr resp = noDiscPhrase ∨ lowerStr resp = allDataPhrase) :
    app_clean_response resp = (strL "No discrepancies", strL "Clean") ∧
    raw_clean_response resp = strL "No discrepancies" ∧
    ∀ pid f, raw_has_data_errors ⟨pid, f, raw_clean_response resp⟩ = false := by
  have hcond : (isSubstringOf noDiscPhrase (lowerStr resp) ||
      isSubstringOf allDataPhrase (lowerStr resp)) = true := by
    rcases h with h | h <;> simp [h, isSubstringOf_self]
  have h2 : raw_clean_response resp = strL "No discrepancies" := by
    simp [raw_clean_response, hcond]
  refine ⟨by simp [app_clean_response, hcond], h2, ?_⟩
  intro pid f
  simp [raw_has_data_errors, h2, isSubstringOf_self]

/-- C2 witness at the response `No Discrepancies`. -/
theorem claim_C2_witness :
    lowerStr (strL "No Discrepancies") = noDiscPhrase ∧
    app_clean_response (strL "No Discrepancies") = (strL "No discrepancies", strL "Clean") :=
  ⟨by decide, (claim_C2 (strL "No Discrepancies") (Or.inl (by decide))).1⟩

/-- C10 (confirmed): Clean classification is decided by substring containment,
not whole-string equality: any response whose lowercased text contains
`no discrepancies` or `all the data` is recorded as Clean with description
`No discrepancies`, in both free-text pipeline variants. -/
theorem claim_C10 (resp : List Char)
    (h : isSubstringOf noDiscPhrase (lowerStr resp) = true ∨
         isSubstringOf allDataPhrase (lowerStr resp) = true) :
    app_clean_response resp = (strL "No discrepancies", strL "Clean") ∧
    raw_clean_response resp = strL "No discrepancies" := by
  have hcond : (isSubstringOf noDiscPhrase (lowerStr resp) ||
      isSubstringOf allDataPhrase (lowerStr resp)) = true := by
    rcases h with h | h <;> simp [h]
  exact ⟨by simp [app_clean_response, hcond], by simp [raw_clean_response, hcond]⟩

/-- C10 witness at a response that names an actual discrepancy and also
contains the sentinel substring: it is still classified Clean. -/
theorem claim_C10_witness :
    isSubstringOf noDiscPhrase (lowerStr c10resp) = true ∧
    app_clean_response c10resp = (strL "No discrepancies", strL "Clean") :=
  ⟨by decide, (claim_C10 c10resp (Or.inl (by decide))).1⟩

/-- C5 (confirmed): master-data lookup is exact string equality on the
identifier column (a row matches iff its stored identifier is the identical
string), and when several rows match, the first matching row is used and the
rest are ignored, with no error. -/
theorem claim_C5 (pre post : List RefRow) (r : RefRow) (pid : List Char)
    (hr : r.patientId = pid) (hpre : ∀ x ∈ pre, x.patientId ≠ pid) :
    (∀ x, x ∈ (pre ++ r :: post).filter (fun y => y.patientId == pid) ↔
        x ∈ pre ++ r :: post ∧ x.patientId = pid) ∧
    lookup_patient (pre ++ r :: post) pid = some r := by
  constructor
  · intro x
    simp only [List.mem_filter, beq_iff_eq]
  · exact lookup_patient_append pre post r pid hpre hr

/-- C5 witness: the identifier `000123` (leading zeros) matches only the rows
storing the literal string `000123`; with two such rows the first one wins; and
the numerically equal string `123` matches nothing. -/
theorem claim_C5_witness :
    lookup_patient ([⟨strL "999", []⟩] ++
        (⟨strL "000123", [(strL "name", strL "A")]⟩ : RefRow) ::
        [⟨strL "000123", [(strL "name", strL "B")]⟩]) (strL "000123") =
      some ⟨strL "000123", [(strL "name", strL "A")]⟩ ∧
    lookup_patient ([⟨strL "999", []⟩] ++
        (⟨strL "000123", [(strL "name", strL "A")]⟩ : RefRow) ::
        [⟨strL "000123", [(strL "name", strL "B")]⟩]) (strL "123") = none :=
  ⟨(claim_C5 [⟨strL "999", []⟩] [⟨strL "000123", [(strL "name", strL "B")]⟩]
      ⟨strL "000123", [(strL "name", strL "A")]⟩ (strL "000123") (by decide) (by decide)).2,
   by decide⟩

/-- C6 (amended): when no identifier pattern matches, the resolver returns
nothing, and no comparison call is made in either variant (the outcome is
unchanged under every oracle); in `process_files` the outcome is the
identifier-not-found error row, while the `Raw.py` loop appends no row at all. -/
theorem claim_C6 (txt : List Char) (df : List RefRow)
    (h : find_patient_id txt = none) :
    (∀ (gpt : GptOracle) (name : List Char),
       process_one_file df gpt ⟨name, PdfContent.ok txt⟩ =
         ⟨strL "Not Found", name, strL "Patient ID not found in PDF", strL "Error"⟩) ∧
    (∀ (gpt : GptOracle) (dname : List Char),
       raw_process_file df gpt ⟨dname, txt⟩ = none) := by
  constructor
  · intro gpt name
    simp [process_one_file, h]
  · intro gpt dname
    unfold raw_process_file
    split
    · simp [h]
    · rfl

/-- C6 counterexample: in the `Raw.py` batch loop, a document whose text has no
identifier pattern receives no outcome record at all (the report stays empty),
so its outcome status is not `IdentifierNotFound` as claimed. -/
theorem claim_C6_counterexample :
    find_patient_id (strL "quarterly totals attached") = none ∧
    raw_batch [⟨strL "9", []⟩] (fun _ _ => strL "ok")
      [⟨strL "c.pdf", strL "quarterly totals attached"⟩] = [] := by
  constructor <;> decide

/-- C6 witness: the amended statement at a concrete no-identifier document in
`process_files`. -/
theorem claim_C6_witness :
    find_patient_id (strL "hello world") = none ∧
    process_one_file [] (fun _ _ => strL "resp") ⟨strL "a.pdf", PdfContent.ok (strL "hello world")⟩ =
      ⟨strL "Not Found", strL "a.pdf", strL "Patient ID not found in PDF", strL "Error"⟩ :=
  ⟨by decide, (claim_C6 (strL "hello world") [] (by decide)).1 (fun _ _ => strL "resp") (strL "a.pdf")⟩

/-- C7 (amended): when the resolved identifier has no matching master-data row,
no comparison call is made in either variant (the outcome is unchanged under
every oracle); in `process_files` the outcome is the not-in-Excel error row,
while the `Raw.py` loop appends no row at all. -/
theorem claim_C7 (txt pid : List Char) (df : List RefRow)
    (hpid : find_patient_id txt = some pid)
    (hlook : lookup_patient df pid = none) :
    (∀ (gpt : GptOracle) (name : List Char),
       process_one_file df gpt ⟨name, PdfContent.ok txt⟩ =
         ⟨pid, name, strL "Patient ID " ++ pid ++ strL " not found in Excel master data",
           strL "Error"⟩) ∧
    (∀ (gpt : GptOracle) (dname : List Char),
       raw_process_file df gpt ⟨dname, txt⟩ = none) := by
  constructor
  · intro gpt name
    simp [process_one_file, hpid, hlook]
  · intro gpt dname
    unfold raw_process_file
    split
    · simp [hpid, hlook]
    · rfl

/-- C7 counterexample: in the `Raw.py` batch loop, a document whose resolved
identifier is absent from the master data receives no outcome record at all
(the report stays empty), so its outcome status is not `ReferenceNotFound` as
claimed. -/
theorem claim_C7_counterexample :
    find_patient_id (strL "Patient ID: 999") = some (strL "999") ∧
    raw_batch [⟨strL "123", []⟩] (fun _ _ => strL "ok")
      [⟨strL "d.pdf", strL "Patient ID: 999"⟩] = [] := by
  constructor <;> decide

/-- C7 witness: the amended statement at a concrete unmatched identifier in
`process_files`. -/
theorem claim_C7_witness :
    find_patient_id (strL "ID - 42") = some (strL "42") ∧
    process_one_file [⟨strL "123", []⟩] (fun _ _ => strL "resp")
        ⟨strL "e.pdf", PdfContent.ok (strL "ID - 42")⟩ =
      ⟨strL "42", strL "e.pdf",
        strL "Patient ID " ++ strL "42" ++ strL " not found in Excel master data",
        strL "Error"⟩ :=
  ⟨by decide,
   (claim_C7 (strL "ID - 42") (strL "42") [⟨strL "123", []⟩] (by decide) (by decide)).1
     (fun _ _ => strL "resp") (strL "e.pdf")⟩

/-- C3 (amended): for a response of shape prose-object-prose where the leading
prose contains no opening brace and the trailing prose contains no closing
brace, and the brace-delimited object parses to a JSON object whose
`discrepancies` key holds an array, the structured-mode parser extracts the
greedy regex span (which then coincides with the object) and returns exactly
the entries of that array, ignoring the surrounding text. -/
theorem claim_C3 (pre o post : List Char) (kvs : List (List Char × Json))
    (entries : List Json)
    (hpre : ∀ c ∈ pre, c ≠ lbrace) (hpost : ∀ c ∈ post, c ≠ rbrace)
    (hhead : o.head? = some lbrace) (hlast : o.getLast? = some rbrace)
    (hparse : json_loads o = some (Json.obj kvs))
    (hdisc : dictGet kvs (strL "discrepancies") = some (Json.arr entries)) :
    compare_parse (pre ++ o ++ post) = Json.arr entries := by
  have hx := extractCandidate_embed pre o post hpre hpost hhead hlast
  simp only [compare_parse, hx, hparse, hdisc, Option.getD_some]

/-- C3 counterexample: a response consisting of a single well-formed JSON
object with a nonempty `discrepancies` array, surrounded by prose whose
trailing part contains a closing brace: the greedy regex span is not valid
JSON, so the parser returns no entries instead of the embedded array. -/
theorem claim_C3_counterexample :
    json_loads c3obj = some (Json.obj [(strL "discrepancies", Json.arr c3entries)]) ∧
    compare_parse c3resp = Json.arr [] ∧
    Json.arr [] ≠ Json.arr c3entries := by
  refine ⟨rfl, rfl, ?_⟩
  intro h
  simp [c3entries] at h

/-- C3 witness: the amended statement at a concrete response with brace-free
surrounding prose. -/
theorem claim_C3_witness :
    compare_parse (strL "Here is the result: " ++ c3obj ++ strL " Thank you.") =
      Json.arr c3entries :=
  claim_C3 (strL "Here is the result: ") c3obj (strL " Thank you.")
    [(strL "discrepancies", Json.arr c3entries)] c3entries
    (by decide) (by decide) (by decide) (by decide) rfl rfl

/-- C4 (confirmed): when the extracted JSON candidate fails to parse (or no
candidate exists at all), the structured-mode parser returns zero discrepancy
entries for that document, and the batch result is exactly that of the
remaining documents — the failing document neither aborts the batch nor
contributes entries (the parse step is total, so no exception propagates). -/
theorem claim_C4 (resp : List Char)
    (h : extractCandidate resp = none ∨
         ∃ cand, extractCandidate resp = some cand ∧ json_loads cand = none)
    (preDocs postDocs : List BatchDoc) (name : List Char) :
    compare_parse resp = Json.arr [] ∧
    process_invoice_batch (preDocs ++ BatchDoc.ok name [resp] :: postDocs) =
      process_invoice_batch preDocs ++ process_invoice_batch postDocs := by
  have h1 : compare_parse resp = Json.arr [] := by
    rcases h with h | ⟨cand, hc, hl⟩
    · simp [compare_parse, h]
    · simp [compare_parse, hc, hl]
  refine ⟨h1, ?_⟩
  simp [process_invoice_batch, batch_doc_discrepancies, h1, jsonEntries]

/-- C4 witness: a response with no JSON object at all yields zero entries and
an empty batch contribution. -/
theorem claim_C4_witness :
    extractCandidate (strL "no json here at all") = none ∧
    process_invoice_batch [BatchDoc.ok (strL "a.pdf") [strL "no json here at all"]] = [] := by
  have h := claim_C4 (strL "no json here at all") (Or.inl (by decide)) [] [] (strL "a.pdf")
  exact ⟨by decide, by simpa using h.2⟩

/-- C8 (amended): the free-text comparison paths fix the sampling temperature
to the minimum value 0, but the structured-mode path `compare_data_with_ai`
uses temperature 0.1, which is not the minimum; it is also the only path with
a capped response length. -/
theorem claim_C8 :
    compare_with_gpt_request.temperature = minTemperature ∧
    raw_compare_with_gpt_request.temperature = minTemperature ∧
    compare_data_with_ai_request.temperature = 1 / 10 ∧
    compare_data_with_ai_request.maxTokens = some 2000 :=
  ⟨rfl, rfl, rfl, rfl⟩

/-- C8 counterexample: the request built by `compare_data_with_ai` does not use
the minimum temperature. -/
theorem claim_C8_counterexample :
    compare_data_with_ai_request.temperature ≠ minTemperature := by
  simp only [compare_data_with_ai_request, minTemperature]
  norm_num

/-- C9 (confirmed): for a nonempty discrepancy list, the summary aggregates of
`create_summary_stats` are computed over absolute values of the numeric
differences: the total is the sum of the absolute values, the average is that
total divided by the number of entries, and the maximum is the largest
absolute value (it is attained and bounds every entry). -/
theorem claim_C9 (vs : List ℚ) (h : vs ≠ []) :
    (create_summary_stats (vs.map some)).total_discrepancies = vs.length ∧
    (create_summary_stats (vs.map some)).total_amount_difference =
      (vs.map (fun v => |v|)).sum ∧
    (create_summary_stats (vs.map some)).avg_discrepancy =
      (vs.map (fun v => |v|)).sum / (vs.length : ℚ) ∧
    (create_summary_stats (vs.map some)).max_discrepancy ∈ vs.map (fun v => |v|) ∧
    ∀ v ∈ vs, |v| ≤ (create_summary_stats (vs.map some)).max_discrepancy := by
  have hne : ¬((vs.map some).isEmpty = true) := by
    simp [List.isEmpty_iff, h]
  have hmap : (vs.map some).map (fun d => |d.getD 0|) = vs.map (fun v => |v|) := by
    rw [List.map_map]
    rfl
  have habs : ∀ x ∈ vs.map (fun v => |v|), 0 ≤ x := by
    intro x hx
    rcases List.mem_map.mp hx with ⟨v, hv, rfl⟩
    exact abs_nonneg v
  have hne2 : vs.map (fun v => |v|) ≠ [] := by simp [h]
  refine ⟨?_, ?_, ?_, ?_, ?_⟩
  · simp [create_summary_stats, hne, hmap]
  · simp [create_summary_stats, hne, hmap]
  · simp [create_summary_stats, hne, hmap]
  · simpa [create_summary_stats, hne, hmap] using foldr_max_mem _ hne2 habs
  · intro v hv
    have hb := le_foldr_max (vs.map (fun x => |x|)) |v| (List.mem_map_of_mem _ hv)
    simpa [create_summary_stats, hne, hmap] using hb

/-- C9 witness: at numeric differences `[10, -20, 5]` the total is `35`, the
average is `35/3`, and the maximum is `20`. -/
theorem claim_C9_witness :
    (create_summary_stats ([10, -20, 5].map some)).total_amount_difference = 35 ∧
    (create_summary_stats ([10, -20, 5].map some)).avg_discrepancy = 35 / 3 ∧
    (create_summary_stats ([10, -20, 5].map some)).max_discrepancy = 20 := by
  obtain ⟨h1, h2, h3, h4, h5⟩ := claim_C9 [10, -20, 5] (by simp)
  refine ⟨h2.trans (by norm_num), h3.trans (by norm_num), ?_⟩
  have h20 := h5 (-20) (by norm_num)
  have habs : |(-20 : ℚ)| = 20 := by norm_num
  rw [habs] at h20
  norm_num at h4 h20 ⊢
  rcases h4 with hm | hm | hm
  · rw [hm] at h20
    norm_num at h20
  · exact hm
  · rw [hm] at h20
    norm_num at h20
